import Mathlib

/-!
Verification of the book-collection state-management core of the
`week9-codecaddy` repository.

The development shallowly embeds the components named in the
specification:

* the collection reducer and derived-view calculator
  (`src/contexts/BookCollectionContext.tsx`);
* the search orchestration (`searchBooks` in the same file);
* the mapping adapter (`src/utils/bookMappers.ts`);
* the persistence codec (`loadInitialState` and the save effect in
  `BookCollectionContext.tsx`), together with a concrete model of the
  platform JSON codec (`JSON.stringify` / `JSON.parse`) that the codec
  delegates to.

TypeScript values translate as follows: `string` becomes `String`,
`T | null` and optional fields become `Option T`, arrays become `List T`,
and the union type of reading statuses becomes a three-constructor
inductive type.  Asynchronous orchestration is embedded by passing the
outcome of the awaited external call as an explicit argument.
-/

namespace CodeCaddy

/-- The `BookStatus` union type of `src/shared/types.ts`:
`'want-to-read' | 'currently-reading' | 'have-read'`. -/
inductive BookStatus where
  | wantToRead
  | currentlyReading
  | haveRead
deriving DecidableEq

/-- The `Book` interface of `src/shared/types.ts`.  Fields appear in
declaration order, which is also the construction order used by the
mapping adapter. -/
structure Book where
  id : String
  title : String
  author : String
  publishedDate : String
  description : String
  thumbnail : String
  status : BookStatus
deriving DecidableEq

/-- The `BookCollectionState` interface of `src/shared/types.ts`:
`error: string | null` becomes `Option String`. -/
structure BookCollectionState where
  books : List Book
  searchResults : List Book
  isLoading : Bool
  error : Option String
  currentlyReading : List Book
  wantToRead : List Book
  haveRead : List Book
deriving DecidableEq

/-- Result type of `computeDerivedArrays`: the object literal
`{ currentlyReading, wantToRead, haveRead }`. -/
structure DerivedArrays where
  currentlyReading : List Book
  wantToRead : List Book
  haveRead : List Book
deriving DecidableEq

/-- The helper `computeDerivedArrays` from `BookCollectionContext.tsx`: three
status filters over the canonical list. -/
def computeDerivedArrays (books : List Book) : DerivedArrays :=
  { currentlyReading := books.filter fun b => decide (b.status = BookStatus.currentlyReading)
    wantToRead := books.filter fun b => decide (b.status = BookStatus.wantToRead)
    haveRead := books.filter fun b => decide (b.status = BookStatus.haveRead) }

/-- The spread `{ ...state, ...computeDerivedArrays(updatedBooks) }`:
overwrite the three derived fields of a state. -/
def setDerived (s : BookCollectionState) (d : DerivedArrays) : BookCollectionState :=
  { s with
    currentlyReading := d.currentlyReading
    wantToRead := d.wantToRead
    haveRead := d.haveRead }

/-- The constant `initialState` from `BookCollectionContext.tsx`. -/
def initialState : BookCollectionState :=
  { books := []
    searchResults := []
    isLoading := false
    error := none
    currentlyReading := []
    wantToRead := []
    haveRead := [] }

/-- The `Action` union type of `BookCollectionContext.tsx`, one
constructor per tagged variant. -/
inductive Action where
  | addBook (payload : Book)
  | removeBook (payload : String)
  | updateBookStatus (id : String) (status : BookStatus)
  | setSearchResults (payload : List Book)
  | setLoading (payload : Bool)
  | setError (payload : Option String)
  | clearSearch
  | loadFromStorage (payload : List Book)

/-- The function `bookCollectionReducer` from `BookCollectionContext.tsx`.  The
`Action` type is closed, so the `default` branch of the TypeScript
`switch` (returning the state unchanged) has no counterpart here. -/
def bookCollectionReducer (state : BookCollectionState) (action : Action) :
    BookCollectionState :=
  match action with
  | .addBook payload =>
    let updatedBooks :=
      state.books.filter (fun book => decide (book.id ≠ payload.id)) ++ [payload]
    setDerived { state with books := updatedBooks } (computeDerivedArrays updatedBooks)
  | .removeBook payload =>
    let updatedBooks := state.books.filter fun book => decide (book.id ≠ payload)
    setDerived { state with books := updatedBooks } (computeDerivedArrays updatedBooks)
  | .updateBookStatus id status =>
    let updatedBooks := state.books.map fun book =>
      if book.id = id then { book with status := status } else book
    setDerived { state with books := updatedBooks } (computeDerivedArrays updatedBooks)
  | .setSearchResults payload =>
    { state with searchResults := payload, isLoading := false, error := none }
  | .setLoading payload =>
    { state with isLoading := payload }
  | .setError payload =>
    { state with error := payload, isLoading := false }
  | .clearSearch =>
    { state with searchResults := [], error := none }
  | .loadFromStorage payload =>
    setDerived { state with books := payload } (computeDerivedArrays payload)

/-- States reachable from `initialState` by dispatching reducer
actions. -/
inductive Reachable : BookCollectionState → Prop where
  | init : Reachable initialState
  | step (s : BookCollectionState) (a : Action) :
      Reachable s → Reachable (bookCollectionReducer s a)

/-! ## Mapping adapter (`src/utils/bookMappers.ts`)

The external item shapes follow the `GoogleBookItem` and
`GoogleBooksResponse` interfaces of `src/shared/types.ts`; optional
TypeScript fields become `Option`.  The metadata fields that no embedded
component ever reads (`categories`, `publisher`, `industryIdentifiers`
on the volume info and `smallThumbnail` on the image links) are
omitted. -/

/-- The `imageLinks` object of a `GoogleBookItem`. -/
structure ImageLinks where
  thumbnail : Option String
deriving DecidableEq

/-- The `volumeInfo` object of a `GoogleBookItem`. -/
structure VolumeInfo where
  title : String
  authors : Option (List String)
  publishedDate : Option String
  description : Option String
  imageLinks : Option ImageLinks
deriving DecidableEq

/-- The `GoogleBookItem` interface of `src/shared/types.ts`. -/
structure GoogleBookItem where
  id : String
  volumeInfo : VolumeInfo
deriving DecidableEq

/-- The `GoogleBooksResponse` interface.  Although the interface
declares `items` as mandatory, `searchBooks` guards with
`!response.items`, so the runtime value may lack it: it is modelled as
an `Option`. -/
structure GoogleBooksResponse where
  kind : String
  totalItems : Nat
  items : Option (List GoogleBookItem)
deriving DecidableEq

/-- The JavaScript idiom `x || dflt` applied to a possibly-undefined
string `x`: both `undefined` and the empty string are falsy and select
the default. -/
def jsOrString (x : Option String) (dflt : String) : String :=
  match x with
  | none => dflt
  | some s => if s = "" then dflt else s

/-- The adapter `mapGoogleBookToBook` from `src/utils/bookMappers.ts`; the `status`
parameter defaults to `'want-to-read'`. -/
def mapGoogleBookToBook (item : GoogleBookItem)
    (status : BookStatus := BookStatus.wantToRead) : Book :=
  { id := item.id
    title := item.volumeInfo.title
    author :=
      jsOrString (item.volumeInfo.authors.map fun as => String.intercalate (", ") as)
        ("Unknown Author")
    publishedDate := jsOrString item.volumeInfo.publishedDate ("Unknown Date")
    description := jsOrString item.volumeInfo.description ("No description available")
    thumbnail :=
      jsOrString (item.volumeInfo.imageLinks.bind fun links => links.thumbnail)
        ("https://via.placeholder.com/128x192.png?text=No+Cover")
    status := status }

/-! ## Search orchestration (`searchBooks` in `BookCollectionContext.tsx`)

`searchBooks` is an `async` function that dispatches reducer actions
around a single awaited call to the external collaborator
(`getBooksApi()` followed by `booksApi.searchBooks(...)`).  The embedding
passes the outcome of that call as an explicit argument and returns the
state after all dispatches of one invocation have been reduced. -/

/-- JavaScript whitespace as removed by `String.prototype.trim`,
restricted to the ASCII range (the Unicode space separators JS also
trims never arise in the claims). -/
def isJsWhitespace (c : Char) : Bool :=
  c = ' ' || c = '\t' || c = '\n' || c = '\r' || c = '\x0b' || c = '\x0c'

/-- The model of `query.trim()`: drop leading and trailing
whitespace. -/
def jsTrim (s : String) : String :=
  String.mk (((s.data.dropWhile isJsWhitespace).reverse.dropWhile isJsWhitespace).reverse)

/-- Outcome of the awaited external call.  `failure (some m)` models a
rejection with an `Error` whose `message` is `m`; `failure none` models
a thrown non-`Error` value, for which the catch block substitutes a
fixed message. -/
inductive SearchOutcome where
  | success (response : GoogleBooksResponse)
  | failure (message : Option String)

/-- The operation `searchBooks` from `BookCollectionContext.tsx`, as the state
transformer of one completed invocation.  `!query.trim()` is the
empty-trim test; the `catch` block covers a rejection of either awaited
step. -/
def searchBooks (state : BookCollectionState) (query : String)
    (outcome : SearchOutcome) : BookCollectionState :=
  if jsTrim query = "" then
    bookCollectionReducer state Action.clearSearch
  else
    let s1 := bookCollectionReducer state (Action.setLoading true)
    match outcome with
    | .success response =>
      match response.items with
      | none =>
        let s2 := bookCollectionReducer s1 (Action.setSearchResults [])
        bookCollectionReducer s2
          (Action.setError (some ("No books found matching your search.")))
      | some items =>
        if items.length = 0 then
          let s2 := bookCollectionReducer s1 (Action.setSearchResults [])
          bookCollectionReducer s2
            (Action.setError (some ("No books found matching your search.")))
        else
          bookCollectionReducer s1
            (Action.setSearchResults (items.map fun item => mapGoogleBookToBook item))
    | .failure message =>
      let s2 := bookCollectionReducer s1
        (Action.setError (some (message.getD ("An unknown error occurred while searching"))))
      bookCollectionReducer s2 (Action.setSearchResults [])

/-! ## Platform JSON codec model

`loadInitialState` and the save effect delegate to the platform's
`JSON.parse` and `JSON.stringify`.  These are modelled concretely: a
JSON value tree, a printer producing the compact text `JSON.stringify`
emits, and a total character-level parser returning `none` where
`JSON.parse` throws.  The model covers the JSON fragment the codec can
meet, with two documented simplifications: numeric literals are
restricted to integers, and control characters other than newline, tab
and carriage return pass through strings verbatim instead of being
`\u`-escaped (the round-trip behaviour is unaffected). -/

/-- JSON value trees (numbers restricted to integers). -/
inductive Json where
  | str (value : String)
  | arr (items : List Json)
  | obj (fields : List (String × Json))
  | num (value : Int)
  | bool (value : Bool)
  | null

/-- String-escaping of one character, as `JSON.stringify` performs it. -/
def escChar (c : Char) : List Char :=
  if c = '"' then ['\\', '"']
  else if c = '\\' then ['\\', '\\']
  else if c = '\n' then ['\\', 'n']
  else if c = '\t' then ['\\', 't']
  else if c = '\r' then ['\\', 'r']
  else [c]

/-- String-escaping of a character sequence. -/
def escString : List Char → List Char
  | [] => []
  | c :: cs => escChar c ++ escString cs

/-- A quoted, escaped JSON string literal. -/
def printStr (s : String) : List Char :=
  '"' :: (escString s.data ++ ['"'])

mutual

/-- The compact text `JSON.stringify` produces for a value. -/
def printJson : Json → List Char
  | .str s => printStr s
  | .arr xs => '[' :: (printElems xs ++ [']'])
  | .obj ms => '{' :: (printMembers ms ++ ['}'])
  | .num n => (toString n).data
  | .bool b => (if b then ("true") else ("false")).data
  | .null => ("null").data

/-- Comma-separated array elements. -/
def printElems : List Json → List Char
  | [] => []
  | [x] => printJson x
  | x :: y :: ys => printJson x ++ ',' :: printElems (y :: ys)

/-- Comma-separated object members. -/
def printMembers : List (String × Json) → List Char
  | [] => []
  | [(k, v)] => printStr k ++ ':' :: printJson v
  | (k, v) :: m :: ms => printStr k ++ ':' :: printJson v ++ ',' :: printMembers (m :: ms)

end

/-- Inverse of `escChar` on the character following a backslash. -/
def unescChar (e : Char) : Option Char :=
  if e = '"' then some '"'
  else if e = '\\' then some '\\'
  else if e = 'n' then some '\n'
  else if e = 't' then some '\t'
  else if e = 'r' then some '\r'
  else if e = '/' then some '/'
  else none

/-- Parse the body of a string literal after the opening quote, up to
and including the closing quote; returns the content and the remaining
input. -/
def parseStrBody : List Char → Option (List Char × List Char)
  | [] => none
  | c :: rest =>
    if c = '"' then some ([], rest)
    else if c = '\\' then
      match rest with
      | [] => none
      | e :: rest2 =>
        match unescChar e, parseStrBody rest2 with
        | some c2, some (s, r) => some (c2 :: s, r)
        | _, _ => none
    else
      match parseStrBody rest with
      | some (s, r) => some (c :: s, r)
      | none => none

/-- Numeric value of a digit run. -/
def digitsToNat (ds : List Char) : Nat :=
  ds.foldl (fun acc c => acc * 10 + (c.toNat - 48)) 0

/-- Wrap a parsed string body as a JSON string value. -/
def strResult : Option (List Char × List Char) → Option (Json × List Char)
  | some (s, r) => some (Json.str (String.mk s), r)
  | none => none

/-- The keyword `null` after its first character. -/
def parseNullBody : List Char → Option (Json × List Char)
  | 'u' :: 'l' :: 'l' :: r => some (Json.null, r)
  | _ => none

/-- The keyword `true` after its first character. -/
def parseTrueBody : List Char → Option (Json × List Char)
  | 'r' :: 'u' :: 'e' :: r => some (Json.bool true, r)
  | _ => none

/-- The keyword `false` after its first character. -/
def parseFalseBody : List Char → Option (Json × List Char)
  | 'a' :: 'l' :: 's' :: 'e' :: r => some (Json.bool false, r)
  | _ => none

/-- A negative integer literal after its minus sign. -/
def parseNegBody : List Char → Option (Json × List Char)
  | [] => none
  | d :: ds =>
    if d.isDigit then
      some (Json.num (-(Int.ofNat (digitsToNat ((d :: ds).takeWhile Char.isDigit)))),
        (d :: ds).dropWhile Char.isDigit)
    else none

mutual

/-- Parse one JSON value; the fuel bounds the nesting depth of the
recursion and is chosen larger than the input length at the top
level. -/
def parseVal : Nat → List Char → Option (Json × List Char)
  | 0, _ => none
  | _ + 1, [] => none
  | fuel + 1, c :: rest =>
    if c = '"' then strResult (parseStrBody rest)
    else if c = '[' then parseArrBody fuel rest
    else if c = '{' then parseObjBody fuel rest
    else if c = 'n' then parseNullBody rest
    else if c = 't' then parseTrueBody rest
    else if c = 'f' then parseFalseBody rest
    else if c.isDigit then
      some (Json.num (Int.ofNat (digitsToNat (c :: rest.takeWhile Char.isDigit))),
        rest.dropWhile Char.isDigit)
    else if c = '-' then parseNegBody rest
    else none

/-- An array body after the opening bracket: either immediately closed
or a non-empty element list. -/
def parseArrBody : Nat → List Char → Option (Json × List Char)
  | 0, _ => none
  | _ + 1, ']' :: r => some (Json.arr [], r)
  | fuel + 1, cs =>
    match parseElems1 fuel cs with
    | some (vs, r) => some (Json.arr vs, r)
    | none => none

/-- An object body after the opening brace: either immediately closed
or a non-empty member list. -/
def parseObjBody : Nat → List Char → Option (Json × List Char)
  | 0, _ => none
  | _ + 1, '}' :: r => some (Json.obj [], r)
  | fuel + 1, cs =>
    match parseMembers1 fuel cs with
    | some (ms, r) => some (Json.obj ms, r)
    | none => none

/-- Parse the non-empty element list of an array, consuming the closing
bracket. -/
def parseElems1 : Nat → List Char → Option (List Json × List Char)
  | 0, _ => none
  | fuel + 1, cs =>
    match parseVal fuel cs with
    | none => none
    | some (v, r) =>
      match r with
      | ',' :: r2 =>
        match parseElems1 fuel r2 with
        | some (vs, r3) => some (v :: vs, r3)
        | none => none
      | ']' :: r2 => some ([v], r2)
      | _ => none

/-- Parse the non-empty member list of an object, consuming the closing
brace. -/
def parseMembers1 : Nat → List Char → Option (List (String × Json) × List Char)
  | 0, _ => none
  | fuel + 1, cs =>
    match cs with
    | '"' :: cs2 =>
      match parseStrBody cs2 with
      | some (k, r) =>
        match r with
        | ':' :: r2 =>
          match parseVal fuel r2 with
          | some (v, r3) =>
            match r3 with
            | ',' :: r4 =>
              match parseMembers1 fuel r4 with
              | some (ms, r5) => some ((String.mk k, v) :: ms, r5)
              | none => none
            | '}' :: r4 => some ([(String.mk k, v)], r4)
            | _ => none
          | none => none
        | _ => none
      | none => none
    | _ => none

end

/-- The model of `JSON.stringify`. -/
def jsonStringify (j : Json) : String :=
  String.mk (printJson j)

/-- The model of `JSON.parse`: parse one value and require the whole
input to be consumed; `none` stands for a thrown `SyntaxError`.  The
fuel exceeds any possible nesting depth of the input. -/
def jsonParse (s : String) : Option Json :=
  match parseVal (s.length + 2) s.data with
  | some (j, []) => some j
  | _ => none

/-! ## Persistence codec (`loadInitialState` and the save effect) -/

/-- The string form of a `BookStatus`, as it appears in `types.ts` and
in serialized records. -/
def statusToString : BookStatus → String
  | .wantToRead => "want-to-read"
  | .currentlyReading => "currently-reading"
  | .haveRead => "have-read"

/-- The reading of a status string back into the closed enumeration. -/
def statusFromString? (s : String) : Option BookStatus :=
  if s = "want-to-read" then some BookStatus.wantToRead
  else if s = "currently-reading" then some BookStatus.currentlyReading
  else if s = "have-read" then some BookStatus.haveRead
  else none

/-- The JSON object `JSON.stringify` derives from a `Book`: keys in the
declaration order of the `Book` interface, which is also the literal
order used everywhere the code constructs a book. -/
def bookToJson (b : Book) : Json :=
  Json.obj
    [ ("id", Json.str b.id)
    , ("title", Json.str b.title)
    , ("author", Json.str b.author)
    , ("publishedDate", Json.str b.publishedDate)
    , ("description", Json.str b.description)
    , ("thumbnail", Json.str b.thumbnail)
    , ("status", Json.str (statusToString b.status)) ]

/-- The reading of a parsed JSON value as a `Book`.  This models the
unchecked TypeScript cast `const books: Book[] = JSON.parse(...)` on a
single element: the source keeps whatever value was parsed, and on
every value the save path can have written the two agree.  On an array
element that is not book-shaped the source would keep the raw value
while this model discards the array; no claim concerns that case. -/
def bookFromJson? : Json → Option Book
  | Json.obj
      [ ("id", Json.str id)
      , ("title", Json.str title)
      , ("author", Json.str author)
      , ("publishedDate", Json.str publishedDate)
      , ("description", Json.str description)
      , ("thumbnail", Json.str thumbnail)
      , ("status", Json.str status) ] =>
    (statusFromString? status).map fun st =>
      { id := id
        title := title
        author := author
        publishedDate := publishedDate
        description := description
        thumbnail := thumbnail
        status := st }
  | _ => none

/-- Element-wise reading of a parsed array as books (see
`bookFromJson?`). -/
def decodeBooks? : List Json → Option (List Book)
  | [] => some []
  | j :: js =>
    match bookFromJson? j, decodeBooks? js with
    | some b, some bs => some (b :: bs)
    | _, _ => none

/-- The `Array.isArray` guard combined with the element reading of the
cast (see `bookFromJson?`). -/
def decodeBookArray? : Json → Option (List Book)
  | Json.arr items => decodeBooks? items
  | _ => none

/-- The save effect of `BookCollectionProvider`:
`JSON.stringify(state.books)`, the blob written to the fixed storage
key. -/
def saveBooks (books : List Book) : String :=
  jsonStringify (Json.arr (books.map bookToJson))

/-- The function `loadInitialState` from `BookCollectionContext.tsx`, over the
content of the storage slot (`none` models an absent key).  The second
component records whether the catch block logged a diagnostic
(`console.error`).  `if (savedBooks)` treats the empty string like an
absent key, so the parse is never reached for it; a parse failure is
the thrown `SyntaxError` the catch block logs; a parsed non-array falls
through to `return initialState` without logging. -/
def loadInitialState (slot : Option String) : BookCollectionState × Bool :=
  match slot with
  | none => (initialState, false)
  | some savedBooks =>
    if savedBooks = "" then (initialState, false)
    else
      match jsonParse savedBooks with
      | none => (initialState, true)
      | some parsed =>
        match decodeBookArray? parsed with
        | some books =>
          (setDerived { initialState with books := books } (computeDerivedArrays books),
            false)
        | none => (initialState, false)

/-! ## Derived-view invariant and sample states -/

/-- The documented invariant of `BookCollectionState`: the three stored
derived fields agree with `computeDerivedArrays` of the canonical
list. -/
def DerivedOk (s : BookCollectionState) : Prop :=
  s.currentlyReading = (computeDerivedArrays s.books).currentlyReading ∧
  s.wantToRead = (computeDerivedArrays s.books).wantToRead ∧
  s.haveRead = (computeDerivedArrays s.books).haveRead

/-- The stored derived view associated with a status. -/
def viewFor (s : BookCollectionState) : BookStatus → List Book
  | .wantToRead => s.wantToRead
  | .currentlyReading => s.currentlyReading
  | .haveRead => s.haveRead

/-- A sample record used by concrete witnesses. -/
def sampleBook : Book :=
  { id := "1"
    title := "T"
    author := "A"
    publishedDate := "2020"
    description := "D"
    thumbnail := "th"
    status := BookStatus.currentlyReading }

/-- A record sharing `sampleBook`'s id with different field values. -/
def sampleBookDup : Book :=
  { sampleBook with title := "U", status := BookStatus.wantToRead }

/-- A replacement record with `sampleBook`'s id and new field values. -/
def sampleBookNew : Book :=
  { sampleBook with title := "V", status := BookStatus.haveRead }

/-- A state satisfying the derived-view invariant, holding exactly
`sampleBook`. -/
def cleanState : BookCollectionState :=
  { books := [sampleBook]
    searchResults := []
    isLoading := false
    error := none
    currentlyReading := [sampleBook]
    wantToRead := []
    haveRead := [] }

/-- A collaborator response carrying zero items. -/
def emptyItemsResponse : GoogleBooksResponse :=
  { kind := "books#volumes"
    totalItems := 0
    items := some [] }

/-- A copy of `cleanState` with stale transient search fields: old results, a
stale error message and a raised loading flag. -/
def staleState : BookCollectionState :=
  { cleanState with
    searchResults := [sampleBook]
    isLoading := true
    error := some ("stale") }

/-- A state whose stored derived views have diverged from `books`. -/
def divergedState : BookCollectionState :=
  { books := []
    searchResults := []
    isLoading := false
    error := none
    currentlyReading := [sampleBook]
    wantToRead := []
    haveRead := [] }

/-- A state holding two records with the same id. -/
def dupIdState : BookCollectionState :=
  { books := [sampleBook, sampleBookDup]
    searchResults := []
    isLoading := false
    error := none
    currentlyReading := [sampleBook]
    wantToRead := [sampleBookDup]
    haveRead := [] }

/-! ## Invariant lemmas -/

/-- The initial state satisfies the derived-view invariant. -/
theorem derivedOk_initialState : DerivedOk initialState :=
  ⟨rfl, rfl, rfl⟩

/-- Every reducer action preserves the derived-view invariant: the
mutating actions recompute all three views and the others touch neither
`books` nor the views. -/
theorem derivedOk_reducer (s : BookCollectionState) (a : Action) (h : DerivedOk s) :
    DerivedOk (bookCollectionReducer s a) := by
  cases a <;> first
    | exact ⟨rfl, rfl, rfl⟩
    | exact h

/-- Every reachable state satisfies the derived-view invariant. -/
theorem derivedOk_of_reachable (s : BookCollectionState) (h : Reachable s) :
    DerivedOk s := by
  induction h with
  | init => exact derivedOk_initialState
  | step s a _ ih => exact derivedOk_reducer s a ih

/-- In a state satisfying the invariant, the stored views are the
status filters, each record of `books` belongs exactly to the view of
its own status, and the views contain only records of `books`. -/
theorem derivedOk_partition (s : BookCollectionState) (h : DerivedOk s) :
    (s.wantToRead = s.books.filter (fun b => decide (b.status = BookStatus.wantToRead)) ∧
     s.currentlyReading =
       s.books.filter (fun b => decide (b.status = BookStatus.currentlyReading)) ∧
     s.haveRead = s.books.filter (fun b => decide (b.status = BookStatus.haveRead))) ∧
    (∀ b ∈ s.books, ∀ st : BookStatus, b ∈ viewFor s st ↔ st = b.status) ∧
    (∀ st : BookStatus, ∀ b ∈ viewFor s st, b ∈ s.books) := by
  obtain ⟨h1, h2, h3⟩ := h
  refine ⟨⟨h2, h1, h3⟩, ?_, ?_⟩
  · intro b hb st
    cases st <;>
      simp [viewFor, h1, h2, h3, computeDerivedArrays, List.mem_filter, hb, eq_comm]
  · intro st b hb
    cases st <;>
      simp only [viewFor, h1, h2, h3, computeDerivedArrays, List.mem_filter] at hb <;>
      exact hb.1

/-! ## Claim theorems -/

/-- C1: in every state reachable from the initial state by reducer
actions, the three derived fields equal the status filters of `books`;
consequently each record of `books` lies in exactly the view matching
its status and the views contain no record outside `books`. -/
theorem C1_derived_views_partition (s : BookCollectionState) (h : Reachable s) :
    (s.wantToRead = s.books.filter (fun b => decide (b.status = BookStatus.wantToRead)) ∧
     s.currentlyReading =
       s.books.filter (fun b => decide (b.status = BookStatus.currentlyReading)) ∧
     s.haveRead = s.books.filter (fun b => decide (b.status = BookStatus.haveRead))) ∧
    (∀ b ∈ s.books, ∀ st : BookStatus, b ∈ viewFor s st ↔ st = b.status) ∧
    (∀ st : BookStatus, ∀ b ∈ viewFor s st, b ∈ s.books) :=
  derivedOk_partition s (derivedOk_of_reachable s h)

/-- Witness for C1 at the reachable state obtained by adding
`sampleBook` to the initial state. -/
theorem C1_derived_views_partition_witness :
    (let s := bookCollectionReducer initialState (Action.addBook sampleBook)
     (s.wantToRead = s.books.filter (fun b => decide (b.status = BookStatus.wantToRead)) ∧
      s.currentlyReading =
        s.books.filter (fun b => decide (b.status = BookStatus.currentlyReading)) ∧
      s.haveRead = s.books.filter (fun b => decide (b.status = BookStatus.haveRead))) ∧
     (∀ b ∈ s.books, ∀ st : BookStatus, b ∈ viewFor s st ↔ st = b.status) ∧
     (∀ st : BookStatus, ∀ b ∈ viewFor s st, b ∈ s.books)) :=
  C1_derived_views_partition _ (Reachable.step initialState _ Reachable.init)

/-- C2 (code-bug evidence): after a failing external search on a
non-whitespace query, the catch block dispatches `SET_ERROR` and then
`SET_SEARCH_RESULTS []`, and the latter resets `error` to `null`
(`none`): the final state carries no error message, contrary to the
claim. -/
theorem C2_search_failure_error_cleared :
    (searchBooks initialState ("a") (SearchOutcome.failure (some ("Network error")))).error
      = none ∧
    (searchBooks initialState ("a")
        (SearchOutcome.failure (some ("Network error")))).searchResults = [] := by
  constructor <;> decide

/-- C10: the three collection-mutation actions change only `books` and
the derived views; `searchResults`, `isLoading` and `error` are framed
in the spread. -/
theorem C10_collection_actions_frame (s : BookCollectionState) (b : Book)
    (rid : String) (uid : String) (st : BookStatus) :
    ((bookCollectionReducer s (Action.addBook b)).searchResults = s.searchResults ∧
     (bookCollectionReducer s (Action.addBook b)).isLoading = s.isLoading ∧
     (bookCollectionReducer s (Action.addBook b)).error = s.error) ∧
    ((bookCollectionReducer s (Action.removeBook rid)).searchResults = s.searchResults ∧
     (bookCollectionReducer s (Action.removeBook rid)).isLoading = s.isLoading ∧
     (bookCollectionReducer s (Action.removeBook rid)).error = s.error) ∧
    ((bookCollectionReducer s (Action.updateBookStatus uid st)).searchResults
        = s.searchResults ∧
     (bookCollectionReducer s (Action.updateBookStatus uid st)).isLoading = s.isLoading ∧
     (bookCollectionReducer s (Action.updateBookStatus uid st)).error = s.error) :=
  ⟨⟨rfl, rfl, rfl⟩, ⟨rfl, rfl, rfl⟩, ⟨rfl, rfl, rfl⟩⟩

/-- C6: on a query that trims to the empty string the search operation
is exactly one `CLEAR_SEARCH` dispatch — independent of the external
collaborator's outcome — so the resulting state has empty
`searchResults`, no `error`, and an unchanged `isLoading`. -/
theorem C6_whitespace_query_clears (s : BookCollectionState) (q : String)
    (o : SearchOutcome) (h : jsTrim q = "") :
    searchBooks s q o = bookCollectionReducer s Action.clearSearch ∧
    (searchBooks s q o).searchResults = [] ∧
    (searchBooks s q o).error = none ∧
    (searchBooks s q o).isLoading = s.isLoading := by
  have he : searchBooks s q o = bookCollectionReducer s Action.clearSearch := by
    simp [searchBooks, h]
  rw [he]
  exact ⟨rfl, rfl, rfl, rfl⟩

/-- Witness for C6: the query of three spaces on a state with stale
results, a stale error and a loading flag, with a would-be failing
collaborator. -/
theorem C6_whitespace_query_clears_witness :
    (searchBooks staleState ("   ") (SearchOutcome.failure (some ("ignored"))) =
      bookCollectionReducer staleState Action.clearSearch) ∧
    (searchBooks staleState ("   ")
        (SearchOutcome.failure (some ("ignored")))).searchResults = [] ∧
    (searchBooks staleState ("   ")
        (SearchOutcome.failure (some ("ignored")))).error = none ∧
    (searchBooks staleState ("   ")
        (SearchOutcome.failure (some ("ignored")))).isLoading = staleState.isLoading :=
  C6_whitespace_query_clears _ _ _ (by decide)

/-- C7: a non-whitespace query answered by the collaborator with zero
items (an absent or empty item list) ends with empty `searchResults`,
the fixed no-results error message, and `isLoading` false. -/
theorem C7_zero_items_error (s : BookCollectionState) (q : String)
    (resp : GoogleBooksResponse) (hq : ¬jsTrim q = "")
    (hitems : resp.items = none ∨ resp.items = some []) :
    (searchBooks s q (SearchOutcome.success resp)).searchResults = [] ∧
    (searchBooks s q (SearchOutcome.success resp)).error =
      some ("No books found matching your search.") ∧
    (searchBooks s q (SearchOutcome.success resp)).isLoading = false := by
  rcases hitems with h | h <;>
    simp [searchBooks, hq, h, bookCollectionReducer]

/-- Witness for C7 at the query of one letter and a response with an
empty item list. -/
theorem C7_zero_items_error_witness :
    (searchBooks cleanState ("a")
        (SearchOutcome.success emptyItemsResponse)).searchResults = [] ∧
    (searchBooks cleanState ("a")
        (SearchOutcome.success emptyItemsResponse)).error =
      some ("No books found matching your search.") ∧
    (searchBooks cleanState ("a")
        (SearchOutcome.success emptyItemsResponse)).isLoading = false :=
  C7_zero_items_error _ _ _ (by decide) (Or.inr rfl)

/-- C8 (amended): in a state whose derived views agree with `books` —
as every reachable state does — `UPDATE_BOOK_STATUS` for an id that no
record carries returns the input state unchanged. -/
theorem C8_update_missing_id_noop (s : BookCollectionState) (uid : String)
    (st : BookStatus) (hid : ∀ b ∈ s.books, ¬b.id = uid) (hinv : DerivedOk s) :
    bookCollectionReducer s (Action.updateBookStatus uid st) = s := by
  have hmap : (s.books.map fun book =>
      if book.id = uid then { book with status := st } else book) = s.books := by
    have := List.map_congr_left (l := s.books)
      (f := fun book => if book.id = uid then { book with status := st } else book)
      (g := id) (fun b hb => by simp [hid b hb])
    simpa using this
  obtain ⟨h1, h2, h3⟩ := hinv
  cases s with
  | mk books searchResults isLoading error currentlyReading wantToRead haveRead =>
    simp only [bookCollectionReducer, setDerived, hmap]
    simp only at h1 h2 h3
    rw [← h1, ← h2, ← h3]

/-- Witness for C8 at `cleanState` (derived views consistent) and an
id held by no record. -/
theorem C8_update_missing_id_noop_witness :
    bookCollectionReducer cleanState (Action.updateBookStatus ("2") BookStatus.haveRead)
      = cleanState :=
  C8_update_missing_id_noop _ _ _ (by decide) ⟨by decide, by decide, by decide⟩

/-- Counterexample to C8 as stated: in a state whose stored views have
diverged from `books`, the recomputation performed by
`UPDATE_BOOK_STATUS` changes the state even though no record matches
the id. -/
theorem C8_update_missing_id_cex :
    ¬bookCollectionReducer divergedState (Action.updateBookStatus ("1") BookStatus.haveRead)
      = divergedState := by
  decide

/-- Splitting the length of a list of books along the id test of the
`ADD_BOOK` branch. -/
theorem length_filter_id_split (l : List Book) (bid : String) :
    (l.filter fun x => !decide (x.id = bid)).length
      + (l.filter fun x => decide (x.id = bid)).length = l.length := by
  induction l with
  | nil => rfl
  | cons x xs ih =>
    by_cases hx : x.id = bid <;> simp [hx, List.filter_cons] <;> omega

/-- C3 (amended): adding a record whose id is carried by exactly one
existing record replaces it: the length is preserved and the records
with that id in the result are exactly the new record. -/
theorem C3_add_existing_id_replaces (s : BookCollectionState) (b : Book)
    (h : (s.books.filter fun x => decide (x.id = b.id)).length = 1) :
    ((bookCollectionReducer s (Action.addBook b)).books).length = s.books.length ∧
    ((bookCollectionReducer s (Action.addBook b)).books).filter
      (fun x => decide (x.id = b.id)) = [b] := by
  constructor
  · have hsplit := length_filter_id_split s.books b.id
    simp only [bookCollectionReducer, setDerived, List.length_append,
      List.length_cons, List.length_nil, ne_eq, decide_not]
    omega
  · simp only [bookCollectionReducer, setDerived, List.filter_append,
      List.filter_filter]
    have h1 : (s.books.filter fun x =>
        decide (x.id = b.id) && decide ¬x.id = b.id) = [] := by
      rw [List.filter_eq_nil_iff]
      intro a _
      by_cases hx : a.id = b.id <;> simp [hx]
    rw [h1]
    simp

/-- Witness for C3: `cleanState` holds exactly one record with id
`"1"`; adding `sampleBookNew` (same id, new field values) replaces
it. -/
theorem C3_add_existing_id_replaces_witness :
    ((bookCollectionReducer cleanState (Action.addBook sampleBookNew)).books).length
        = cleanState.books.length ∧
    ((bookCollectionReducer cleanState (Action.addBook sampleBookNew)).books).filter
      (fun x => decide (x.id = sampleBookNew.id)) = [sampleBookNew] :=
  C3_add_existing_id_replaces _ _ (by decide)

/-- Counterexample to C3 as stated: in a state holding two records with
the added id, `ADD_BOOK` removes both and appends one, shrinking the
collection. -/
theorem C3_add_existing_id_cex :
    ¬((bookCollectionReducer dupIdState (Action.addBook sampleBookNew)).books).length
      = dupIdState.books.length := by
  decide

/-- C9 (amended): on an item lacking authors, date, description and
thumbnail, the adapter copies id and title verbatim and fills the fixed
defaults, with the provided status (defaulting to want-to-read); an
absent or empty author list yields the author default, and a non-empty
author list yields the comma-join whenever that join is non-empty (a
join equal to the empty string — a single empty author name — is falsy
in JavaScript and also yields the default). -/
theorem C9_mapper_defaults :
    (∀ (bid btitle : String) (st : BookStatus),
      mapGoogleBookToBook ⟨bid, ⟨btitle, none, none, none, none⟩⟩ st =
        { id := bid, title := btitle, author := "Unknown Author",
          publishedDate := "Unknown Date",
          description := "No description available",
          thumbnail := "https://via.placeholder.com/128x192.png?text=No+Cover",
          status := st } ∧
      mapGoogleBookToBook ⟨bid, ⟨btitle, none, none, none, none⟩⟩ =
        mapGoogleBookToBook ⟨bid, ⟨btitle, none, none, none, none⟩⟩
          BookStatus.wantToRead) ∧
    (∀ (item : GoogleBookItem) (st : BookStatus),
      (item.volumeInfo.authors = none ∨ item.volumeInfo.authors = some []) →
      (mapGoogleBookToBook item st).author = "Unknown Author") ∧
    (∀ (item : GoogleBookItem) (st : BookStatus) (l : List String),
      item.volumeInfo.authors = some l →
      ¬String.intercalate (", ") l = "" →
      (mapGoogleBookToBook item st).author = String.intercalate (", ") l) := by
  refine ⟨fun bid btitle st => ⟨rfl, rfl⟩, ?_, ?_⟩
  · intro item st h
    rcases h with h | h
    · simp [mapGoogleBookToBook, jsOrString, h]
    · simp [mapGoogleBookToBook, jsOrString, h]
      intro hc
      exact absurd (by decide) hc
  · intro item st l h hne
    simp [mapGoogleBookToBook, jsOrString, h, hne]

/-- Witness for C9 at concrete items: one bare item, one with an empty
author list, one with two authors. -/
theorem C9_mapper_defaults_witness :
    mapGoogleBookToBook ⟨"x", ⟨"T", none, none, none, none⟩⟩ BookStatus.wantToRead =
      { id := "x", title := "T", author := "Unknown Author",
        publishedDate := "Unknown Date",
        description := "No description available",
        thumbnail := "https://via.placeholder.com/128x192.png?text=No+Cover",
        status := BookStatus.wantToRead } ∧
    (mapGoogleBookToBook ⟨"y", ⟨"U", some [], none, none, none⟩⟩
      BookStatus.wantToRead).author = "Unknown Author" ∧
    (mapGoogleBookToBook ⟨"z", ⟨"V", some ["A", "B"], none, none, none⟩⟩
      BookStatus.wantToRead).author = String.intercalate (", ") ["A", "B"] :=
  ⟨(C9_mapper_defaults.1 ("x") ("T") BookStatus.wantToRead).1,
   C9_mapper_defaults.2.1 _ _ (Or.inr rfl),
   C9_mapper_defaults.2.2 _ _ _ rfl (by decide)⟩

/-- Counterexample to C9 as stated: the non-empty author list holding
one empty name joins to the empty string, which the `||` fallback
replaces by the default, so the mapped author is not the join. -/
theorem C9_mapper_authors_cex :
    ¬(mapGoogleBookToBook ⟨"x", ⟨"T", some [""], none, none, none⟩⟩
        BookStatus.wantToRead).author = String.intercalate (", ") [""] := by
  decide

/-! ## Round-trip of the JSON model on the values the codec writes -/

/-- Structure eta for strings. -/
theorem string_mk_data (s : String) : String.mk s.data = s := rfl

/-- A closing quote ends a string body. -/
theorem parseStrBody_quote (rest : List Char) :
    parseStrBody ('"' :: rest) = some ([], rest) := by
  rw [parseStrBody.eq_def]
  simp

/-- An escape sequence prepends its decoded character. -/
theorem parseStrBody_esc (e c2 : Char) (rest : List Char) (s r : List Char)
    (he : unescChar e = some c2) (h : parseStrBody rest = some (s, r)) :
    parseStrBody ('\\' :: e :: rest) = some (c2 :: s, r) := by
  rw [parseStrBody.eq_def]
  simp [he, h]

/-- An unescaped character other than a quote or backslash prepends
itself. -/
theorem parseStrBody_plain (c : Char) (rest : List Char) (s r : List Char)
    (h1 : ¬c = '"') (h2 : ¬c = '\\') (h : parseStrBody rest = some (s, r)) :
    parseStrBody (c :: rest) = some (c :: s, r) := by
  rw [parseStrBody.eq_def]
  simp [h1, h2, h]

/-- Escaped string bodies parse back to themselves, leaving the input
after the closing quote. -/
theorem parseStrBody_escString (cs : List Char) (rest : List Char) :
    parseStrBody (escString cs ++ '"' :: rest) = some (cs, rest) := by
  induction cs with
  | nil => exact parseStrBody_quote rest
  | cons c cs ih =>
    simp only [escString, escChar]
    by_cases h1 : c = '"'
    · subst h1
      simpa using parseStrBody_esc '"' '"' _ _ _ (by decide) ih
    · by_cases h2 : c = '\\'
      · subst h2
        simpa using parseStrBody_esc '\\' '\\' _ _ _ (by decide) ih
      · by_cases h3 : c = '\n'
        · subst h3
          simpa using parseStrBody_esc 'n' '\n' _ _ _ (by decide) ih
        · by_cases h4 : c = '\t'
          · subst h4
            simpa using parseStrBody_esc 't' '\t' _ _ _ (by decide) ih
          · by_cases h5 : c = '\r'
            · subst h5
              simpa using parseStrBody_esc 'r' '\r' _ _ _ (by decide) ih
            · simpa [h1, h2, h3, h4, h5]
                using parseStrBody_plain c _ _ _ h1 h2 ih

/-- A printed string literal parses as one JSON value at any positive
fuel. -/
theorem parseVal_str (f : Nat) (s : List Char) (rest : List Char) :
    parseVal (f + 1) ('"' :: (escString s ++ '"' :: rest))
      = some (Json.str (String.mk s), rest) := by
  simp [parseVal, strResult, parseStrBody_escString]

/-- The key/value string pairs of a serialized book, in interface
order. -/
def bookPairs (b : Book) : List (String × String) :=
  [ ("id", b.id)
  , ("title", b.title)
  , ("author", b.author)
  , ("publishedDate", b.publishedDate)
  , ("description", b.description)
  , ("thumbnail", b.thumbnail)
  , ("status", statusToString b.status) ]

/-- Unfolding of `bookToJson` as the object of the string members `bookPairs`. -/
theorem bookToJson_eq_pairs (b : Book) :
    bookToJson b = Json.obj ((bookPairs b).map fun kv => (kv.1, Json.str kv.2)) := rfl

/-- A printed non-empty list of string members parses back to itself at
any sufficient fuel, consuming the closing brace. -/
theorem parseMembers1_strs (ms : List (String × String)) :
    ms ≠ [] → ∀ fuel : Nat, ms.length + 1 ≤ fuel → ∀ rest : List Char,
    parseMembers1 fuel
      (printMembers (ms.map fun kv => (kv.1, Json.str kv.2)) ++ '}' :: rest)
      = some (ms.map fun kv => (kv.1, Json.str kv.2), rest) := by
  induction ms with
  | nil => intro h; exact absurd rfl h
  | cons kv tl ih =>
    intro _ fuel hfuel rest
    obtain ⟨g, rfl⟩ : ∃ g, fuel = g + 1 + 1 :=
      ⟨fuel - 2, by simp [List.length_cons] at hfuel; omega⟩
    cases tl with
    | nil =>
      simp only [List.map_cons, List.map_nil, printMembers, printStr, printJson,
        List.cons_append, List.append_assoc, List.nil_append]
      rw [parseMembers1]
      simp [parseStrBody_escString, parseVal_str]
    | cons kv2 tl2 =>
      simp only [List.map_cons, printMembers, printStr, printJson,
        List.cons_append, List.append_assoc, List.nil_append]
      rw [parseMembers1]
      have hrec := ih (by simp) (g + 1)
        (by simp only [List.length_cons] at hfuel ⊢; omega) rest
      simp only [List.map_cons, printMembers, printStr, printJson,
        List.cons_append, List.append_assoc, List.nil_append] at hrec
      simp [parseStrBody_escString, parseVal_str, hrec]

/-- A printed book object parses back to `bookToJson` at any fuel of at
least ten. -/
theorem parseVal_book (b : Book) :
    ∀ fuel : Nat, 10 ≤ fuel → ∀ rest : List Char,
    parseVal fuel (printJson (bookToJson b) ++ rest) = some (bookToJson b, rest) := by
  intro fuel hfuel rest
  obtain ⟨g, rfl⟩ : ∃ g, fuel = g + 1 + 1 := ⟨fuel - 2, by omega⟩
  rw [bookToJson_eq_pairs]
  simp only [printJson, bookPairs, List.map_cons, List.map_nil, printMembers,
    printStr, List.cons_append, List.append_assoc, List.nil_append]
  rw [parseVal]
  have hm := parseMembers1_strs (bookPairs b) (by simp [bookPairs]) g
    (by simp [bookPairs]; omega) rest
  simp only [bookPairs, List.map_cons, List.map_nil, printMembers, printStr, printJson,
    List.cons_append, List.append_assoc, List.nil_append] at hm
  rw [parseObjBody]
  · simp [hm]
  · intro r h
    simp at h

/-- A printed non-empty list of book objects parses back to itself at
any sufficient fuel, consuming the closing bracket. -/
theorem parseElems1_books (books : List Book) :
    books ≠ [] → ∀ fuel : Nat, books.length + 10 ≤ fuel → ∀ rest : List Char,
    parseElems1 fuel (printElems (books.map bookToJson) ++ ']' :: rest)
      = some (books.map bookToJson, rest) := by
  induction books with
  | nil => intro h; exact absurd rfl h
  | cons b tl ih =>
    intro _ fuel hfuel rest
    obtain ⟨g, rfl⟩ : ∃ g, fuel = g + 1 := ⟨fuel - 1, by omega⟩
    cases tl with
    | nil =>
      simp only [List.map_cons, List.map_nil, printElems]
      rw [parseElems1]
      have hv := parseVal_book b g (by simp at hfuel; omega) (']' :: rest)
      simp [hv]
    | cons b2 tl2 =>
      simp only [List.map_cons, printElems, List.append_assoc, List.cons_append]
      rw [parseElems1]
      have hv := parseVal_book b g (by simp at hfuel; omega)
        (',' :: (printElems (bookToJson b2 :: tl2.map bookToJson) ++ ']' :: rest))
      have hrec := ih (by simp) g (by simp at hfuel ⊢; omega) rest
      simp only [List.map_cons] at hrec
      simp [hv, hrec]

/-- The length of a string built from a character list. -/
theorem string_length_mk (l : List Char) : (String.mk l).length = l.length := rfl

/-- The character list of a string built from one. -/
theorem string_data_mk (l : List Char) : (String.mk l).data = l := rfl

/-- A printed book object spans at least ten characters. -/
theorem printJson_book_length (b : Book) : 10 ≤ (printJson (bookToJson b)).length := by
  rw [bookToJson_eq_pairs]
  simp only [printJson, bookPairs, List.map_cons, List.map_nil, printMembers,
    printStr, List.length_cons, List.length_append]
  omega

/-- A printed non-empty book list spans at least ten characters per
book. -/
theorem printElems_books_length (b : Book) (tl : List Book) :
    10 * (tl.length + 1) ≤ (printElems ((b :: tl).map bookToJson)).length := by
  induction tl generalizing b with
  | nil =>
    simpa [printElems] using printJson_book_length b
  | cons b2 tl2 ih =>
    have h1 := printJson_book_length b
    have h2 := ih b2
    simp only [List.map_cons, printElems, List.length_append, List.length_cons] at *
    omega

/-- A non-empty printed book list starts with an opening brace. -/
theorem printElems_books_head (b : Book) (tl : List Book) :
    ∃ t, printElems ((b :: tl).map bookToJson) = '{' :: t := by
  cases tl with
  | nil => exact ⟨_, rfl⟩
  | cons b2 tl2 => exact ⟨_, rfl⟩

/-- The save blob of any book list parses back to the serialized
array. -/
theorem jsonParse_saveBooks (books : List Book) :
    jsonParse (saveBooks books) = some (Json.arr (books.map bookToJson)) := by
  cases books with
  | nil => rfl
  | cons b tl =>
    have hbound := printElems_books_length b tl
    obtain ⟨t, ht⟩ := printElems_books_head b tl
    obtain ⟨g, hgf, hgb⟩ :
        ∃ g, (printJson (Json.arr ((b :: tl).map bookToJson))).length + 2 = g + 1 + 1 ∧
          (b :: tl).length + 10 ≤ g := by
      refine ⟨(printElems ((b :: tl).map bookToJson)).length + 2, ?_, ?_⟩
      · simp [printJson, List.length_append]
      · simp only [List.length_cons]
        omega
    have he := parseElems1_books (b :: tl) (by simp) g hgb []
    simp only [saveBooks, jsonStringify, jsonParse, string_length_mk, string_data_mk]
    rw [hgf]
    simp only [printJson]
    rw [parseVal]
    rw [if_neg (by decide), if_pos rfl]
    rw [ht, List.cons_append]
    rw [parseArrBody]
    · have hback : ('{' :: (t ++ [']']) : List Char)
          = printElems ((b :: tl).map bookToJson) ++ ']' :: [] := by
        rw [ht]
        simp
      rw [hback, he]
    · intro r h
      simp at h

/-- Reading back a serialized book recovers the book. -/
theorem bookFromJson_toJson (b : Book) : bookFromJson? (bookToJson b) = some b := by
  cases b with
  | mk id title author publishedDate description thumbnail status =>
    cases status <;> rfl

/-- Decoding the serialized array recovers the book list. -/
theorem decodeBookArray_map (books : List Book) :
    decodeBookArray? (Json.arr (books.map bookToJson)) = some books := by
  simp only [decodeBookArray?]
  induction books with
  | nil => rfl
  | cons b tl ih =>
    simp [decodeBooks?, bookFromJson_toJson, ih]

/-- C4: the persistence codec round-trips: saving any book list and
loading the blob yields a state holding the same canonical list (with
its derived views recomputed from it). -/
theorem C4_persistence_roundtrip (books : List Book) :
    (loadInitialState (some (saveBooks books))).1.books = books ∧
    (loadInitialState (some (saveBooks books))).1 =
      setDerived { initialState with books := books } (computeDerivedArrays books) ∧
    (loadInitialState (some (saveBooks books))).2 = false := by
  have hne : ¬saveBooks books = "" := by
    intro h
    have hd := congrArg String.data h
    cases books <;> simp [saveBooks, jsonStringify, printJson, string_data_mk] at hd
  have hmain : loadInitialState (some (saveBooks books)) =
      (setDerived { initialState with books := books } (computeDerivedArrays books),
        false) := by
    simp only [loadInitialState, jsonParse_saveBooks books, decodeBookArray_map books]
    simp [hne]
  rw [hmain]
  exact ⟨rfl, rfl, rfl⟩

/-- C5 (amended): `loadInitialState` is a total function of the slot
content — the model of "never throws to the caller".  An absent key or
an empty blob yields the initial state without parsing; a non-empty
blob that fails to parse yields the initial state and logs the caught
diagnostic; a blob that parses to a non-array yields the initial state
without logging (the `console.error` sits only in the catch block). -/
theorem C5_load_malformed_empty (slot : Option String) :
    (slot = none → loadInitialState slot = (initialState, false)) ∧
    (∀ s : String, slot = some s → s = "" →
      loadInitialState slot = (initialState, false)) ∧
    (∀ s : String, slot = some s → ¬s = "" → jsonParse s = none →
      loadInitialState slot = (initialState, true)) ∧
    (∀ (s : String) (j : Json), slot = some s → jsonParse s = some j →
      (∀ items : List Json, ¬j = Json.arr items) →
      loadInitialState slot = (initialState, false)) := by
  refine ⟨?_, ?_, ?_, ?_⟩
  · intro h
    subst h
    rfl
  · intro s h he
    subst h
    simp [loadInitialState, he]
  · intro s h hne hp
    subst h
    simp [loadInitialState, hne, hp]
  · intro s j h hp hna
    subst h
    by_cases he : s = ""
    · simp [loadInitialState, he]
    · have hdec : decodeBookArray? j = none := by
        cases j with
        | arr items => exact absurd rfl (hna items)
        | null => rfl
        | bool b => rfl
        | num n => rfl
        | str st => rfl
        | obj ms => rfl
      simp [loadInitialState, he, hp, hdec]

/-- Witness for C5 at the three slot contents: absent, the unparsable
blob `nope`, and the parsable non-array blob of an empty object. -/
theorem C5_load_malformed_empty_witness :
    loadInitialState none = (initialState, false) ∧
    loadInitialState (some ("nope")) = (initialState, true) ∧
    loadInitialState (some ("\x7b\x7d")) = (initialState, false) :=
  ⟨(C5_load_malformed_empty none).1 rfl,
   (C5_load_malformed_empty (some ("nope"))).2.2.1 _ rfl (by decide) rfl,
   (C5_load_malformed_empty (some ("\x7b\x7d"))).2.2.2 _ (Json.obj []) rfl rfl
     (fun items h => Json.noConfusion h)⟩

/-- Counterexample to C5 as stated: the blob of an empty object parses
but is not an array; the source returns the empty collection without
reaching the catch block, so no diagnostic is logged, contrary to the
claim's "logs a diagnostic" for this case. -/
theorem C5_nonarray_no_log_cex :
    jsonParse ("\x7b\x7d") = some (Json.obj []) ∧
    (loadInitialState (some ("\x7b\x7d"))).1 = initialState ∧
    ¬(loadInitialState (some ("\x7b\x7d"))).2 = true := by
  refine ⟨rfl, rfl, ?_⟩
  decide

end CodeCaddy
